import Mathlib

/-!
Verification of the obsidian-ai-plugin MCP server core against its specification.

This file gives a shallow embedding, in Lean, of the parts of the repository
that the verified properties talk about:

* src/mcp_server/toolsets/base.py  — the tool decorator, parameter-schema
  derivation, the error-swallowing executor wrapper, and the global tool
  registry;
* src/mcp_server/config.py         — Config.validate_path, the path sandbox
  used by the system toolset;
* src/mcp_server/server.py          — validate_path, the second sandbox
  implementation, whose containment test is textual;
* src/mcp_server/toolsets/system.py — save_file, the persistent shell session
  manager (persistent_shell and _cleanup_old_sessions).

Modelling conventions:

* Python dicts are modelled as association lists with set/del/get operations
  that keep at most one binding per key (matching dict semantics).
* Python exceptions are modelled with Except; a function that can raise
  returns Except PyExc.
* Wall-clock time is modelled as a Nat counter in tenths of a second (one
  poll-loop sleep of 0.1 s advances it by 1); the 3600 s idle limit of
  _cleanup_old_sessions is therefore 36000 ticks and a timeout of t seconds
  is 10 * t ticks.
* The OS shell process attached to a session is abstracted into an
  environment: whether the process has exited at a given instant, the content
  of the scratch output file at a given instant, and whether writing to the
  stdin pipe of the process raises.  The uuid4 generator is abstracted into a
  freshId argument.
* Python string primitives used by the code (strip, replace, substring test,
  split on "/") are re-implemented structurally on the character list of the
  string, so that they compute by kernel reduction.
* The with-lock block, the process spawn, the stdin write and each poll-loop
  sleep are recorded in an event trace, so that statements about what happens
  while the registry mutex is held can be expressed.
-/

/-! ## Association-list model of Python dicts -/

/-- Lookup of a key in a dict modelled as an association list. -/
def getKey {α : Type} (m : List (String × α)) (k : String) : Option α :=
  (m.find? (fun p => p.1 == k)).map Prod.snd

/-- Assignment d[k] = v: at most one binding per key survives. -/
def setKey {α : Type} (m : List (String × α)) (k : String) (v : α) :
    List (String × α) :=
  (k, v) :: m.filter (fun p => p.1 != k)

/-- Deletion del d[k]. -/
def delKey {α : Type} (m : List (String × α)) (k : String) :
    List (String × α) :=
  m.filter (fun p => p.1 != k)

/-- Insertion into a dict whose values are irrelevant to the model (the set of
live session ids). -/
def setId (l : List String) (x : String) : List String :=
  x :: l.filter (fun y => y != x)

/-- Deletion from the id set. -/
def delId (l : List String) (x : String) : List String :=
  l.filter (fun y => y != x)

/-! ## Structural re-implementations of the Python string primitives -/

/-- Test whether pat occurs as a contiguous substring, on character lists;
models the Python expression pat in s. -/
def containsL (pat : List Char) : List Char → Bool
  | [] => pat.isEmpty
  | c :: rest => List.isPrefixOf pat (c :: rest) || containsL pat rest

/-- Substring test on strings; models the Python expression pat in s. -/
def strContains (s pat : String) : Bool :=
  containsL pat.data s.data

/-- Replacement of every non-overlapping occurrence of pat (left to right) by
rep, with explicit fuel for structural recursion; models str.replace for a
non-empty pattern when fuel is at least the length of the input. -/
def replaceL (pat rep : List Char) : Nat → List Char → List Char
  | 0, l => l
  | _ + 1, [] => []
  | fuel + 1, c :: rest =>
    if List.isPrefixOf pat (c :: rest) then
      rep ++ replaceL pat rep fuel (List.drop pat.length (c :: rest))
    else
      c :: replaceL pat rep fuel rest

/-- Models the Python expression s.replace(pat, rep). -/
def pyReplace (s pat rep : String) : String :=
  ⟨replaceL pat.data rep.data s.data.length s.data⟩

/-- Models the Python expression s.strip(): remove leading and trailing
whitespace. -/
def pyStrip (s : String) : String :=
  ⟨((s.data.dropWhile Char.isWhitespace).reverse.dropWhile
      Char.isWhitespace).reverse⟩

/-- Split a character list at every slash; models str.split, as performed on
each path by the resolution model. -/
def splitSlashL : List Char → List Char → List String
  | [], acc => [⟨acc.reverse⟩]
  | c :: rest, acc =>
    if c = '/' then ⟨acc.reverse⟩ :: splitSlashL rest []
    else splitSlashL rest (c :: acc)

/-- Models the Python expression s.split sliced on the slash character. -/
def splitSlash (s : String) : List String :=
  splitSlashL s.data []

/-! ## Python values, exceptions and callables

Model of the data passing through the tool framework of
src/mcp_server/toolsets/base.py.
-/

/-- Model of the Python values a tool parameter or return value can carry. -/
inductive PyVal where
  | vStr (s : String)
  | vInt (n : Int)
  | vBool (b : Bool)
  | vNone
deriving DecidableEq

/-- Models str(v): coercion of a raw return value to a string (a value that is
already a string is returned unchanged). -/
def pyStr : PyVal → String
  | .vStr s => s
  | .vInt n => toString n
  | .vBool b => if b then "True" else "False"
  | .vNone => "None"

/-- Model of a raised Python exception: str(e) and traceback.format_exc(). -/
structure PyExc where
  msg : String
  trace : String
deriving DecidableEq

/-- Model of the Python type annotations relevant to the type_map of the tool
decorator (base.py lines 79 to 87); pOther stands for any unrecognized
annotation. -/
inductive PyType where
  | pStr
  | pInt
  | pFloat
  | pBool
  | pList
  | pDict
  | pOther (n : String)
deriving DecidableEq

/-- Model of one declared parameter of a Python function: its name, its
optional type annotation and its optional default value
(inspect.Parameter). -/
structure PyParam where
  name : String
  ann : Option PyType
  default : Option PyVal
deriving DecidableEq

/-- Model of a Python callable: its dunder name, its signature and its body.
The body receives the bound arguments and either returns a value or
raises. -/
structure PyFunc where
  name : String
  params : List PyParam
  body : List (String × PyVal) → Except PyExc PyVal

/-- Modelled from CPython calling semantics (not from the repository): binding
of a keyword-argument mapping against a signature of positional-or-keyword
parameters.  An argument name that matches no parameter, or a parameter
without default that receives no argument, raises TypeError; otherwise each
parameter is bound to the supplied argument or to its default. -/
def bindKwargs (params : List PyParam) (kwargs : List (String × PyVal)) :
    Except PyExc (List (String × PyVal)) :=
  if kwargs.any (fun kv => params.all (fun p => p.name != kv.1)) then
    Except.error
      ⟨"got an unexpected keyword argument",
       "Traceback (most recent call last):\nTypeError: got an unexpected keyword argument"⟩
  else if params.any
      (fun p => p.default.isNone && kwargs.all (fun kv => kv.1 != p.name)) then
    Except.error
      ⟨"missing a required positional argument",
       "Traceback (most recent call last):\nTypeError: missing a required positional argument"⟩
  else
    Except.ok (params.filterMap (fun p =>
      match getKey kwargs p.name with
      | some v => some (p.name, v)
      | none => p.default.map (fun d => (p.name, d))))

/-- Models the Python call func(**kwargs): bind the arguments then run the
body; a binding failure raises like any other exception. -/
def callPyFunc (f : PyFunc) (kwargs : List (String × PyVal)) :
    Except PyExc PyVal :=
  match bindKwargs f.params kwargs with
  | Except.error e => Except.error e
  | Except.ok bound => f.body bound

/-! ## The tool decorator (src/mcp_server/toolsets/base.py) -/

/-- Embeds ParameterDef (base.py lines 15 to 21): the derived schema of one
tool parameter.  A TypedDict key that is absent is modelled by none. -/
structure ParameterDef where
  type : String
  description : String
  required : Bool
  default : Option PyVal
  enum : Option (List String)
deriving DecidableEq

/-- Embeds ToolDefinition (base.py lines 24 to 30). -/
structure ToolDefinition where
  name : String
  description : String
  parameters : List (String × ParameterDef)
  safe : Bool

/-- Embeds RegisteredTool (base.py lines 33 to 37). -/
structure RegisteredTool where
  definition : ToolDefinition
  execute : List (String × PyVal) → Except PyExc String

/-- Embeds the type_map of the decorator (base.py lines 79 to 87): map a type
annotation to one of the five schema types, any unrecognized type giving
string via dict.get default. -/
def typeMapGet : PyType → String
  | .pStr => "string"
  | .pInt => "number"
  | .pFloat => "number"
  | .pBool => "boolean"
  | .pList => "array"
  | .pDict => "object"
  | .pOther _ => "string"

/-- Embeds base.py lines 77 to 87: the schema type of a parameter is string
when there is no annotation, else the type_map image of the annotation. -/
def paramTypeOf : Option PyType → String
  | none => "string"
  | some t => typeMapGet t

/-- Embeds base.py lines 89 to 105: derivation of the ParameterDef of one
parameter.  required holds iff the parameter has no default
(param.default == inspect.Parameter.empty); the default key is only added
when the parameter is not required; the description comes from the decorator
kwargs with a fallback. -/
def buildParam (paramDescriptions : List (String × String)) (p : PyParam) :
    ParameterDef :=
  let required := p.default.isNone
  { type := paramTypeOf p.ann
    description := (getKey paramDescriptions p.name).getD ("Parameter: " ++ p.name)
    required := required
    default := if required then none else p.default
    enum := none }

/-- Embeds the parameter loop of the decorator (base.py lines 71 to 105),
including the skip of self and cls. -/
def buildParameters (paramDescriptions : List (String × String))
    (params : List PyParam) : List (String × ParameterDef) :=
  (params.filter (fun p => p.name != "self" && p.name != "cls")).map
    (fun p => (p.name, buildParam paramDescriptions p))

/-- Embeds the executor wrapper (base.py lines 116 to 124): run the wrapped
function inside try/except Exception; on success coerce the result to a
string, on any failure return an Error-marked string holding str(e) and the
traceback.  The Except return type records that the wrapper itself could in
principle raise; the theorems show it never does. -/
def executor (f : PyFunc) (kwargs : List (String × PyVal)) :
    Except PyExc String :=
  match callPyFunc f kwargs with
  | Except.ok result => Except.ok (pyStr result)
  | Except.error e => Except.ok ("Error: " ++ e.msg ++ "\n" ++ e.trace)

/-- Embeds the tool decorator (base.py lines 44 to 137): derive the
ToolDefinition from the signature, wrap the body in the executor, and store
the RegisteredTool in the global registry under the dunder name of the
function (an existing entry under that name is overwritten).  Returns the
RegisteredTool together with the updated registry. -/
def tool (description : String) (safe : Bool)
    (paramDescriptions : List (String × String)) (f : PyFunc)
    (registry : List (String × RegisteredTool)) :
    RegisteredTool × List (String × RegisteredTool) :=
  let tool_def : ToolDefinition :=
    { name := f.name
      description := description
      parameters := buildParameters paramDescriptions f.params
      safe := safe }
  let registered : RegisteredTool :=
    { definition := tool_def, execute := executor f }
  (registered, setKey registry f.name registered)

/-- Embeds get_tool (base.py lines 140 to 142). -/
def get_tool (registry : List (String × RegisteredTool)) (name : String) :
    Option RegisteredTool :=
  getKey registry name

/-! ## The path sandbox (src/mcp_server/config.py) -/

/-- Lexical normalization of path components: skip empty components and
single dots, let a double dot remove the last kept component (at the root it
stays at the root, as in POSIX).  This is what resolution does to a path on a
filesystem without symlinks. -/
def normalizeFrom : List String → List String → List String
  | acc, [] => acc
  | acc, c :: rest =>
    if c = "" ∨ c = "." then normalizeFrom acc rest
    else if c = ".." then normalizeFrom acc.dropLast rest
    else normalizeFrom (acc ++ [c]) rest

/-- Models os.path.expanduser: expand a leading home shorthand (the bare
tilde or a tilde followed by a slash) to the home directory; any other path
is returned unchanged. -/
def expanduser (home : String) (p : String) : String :=
  if p = "~" then home
  else if List.isPrefixOf ['~', '/'] p.data then home ++ ⟨p.data.drop 1⟩
  else p

/-- Models Path(p).resolve() on a symlink-free filesystem: make the path
absolute against the current directory, then normalize dots and double dots.
A path is absolute when it starts with a slash.  An absolute path is
represented by its list of components. -/
def resolvePath (cwd : List String) (p : String) : List String :=
  let segs := splitSlash p
  let start := if List.isPrefixOf ['/'] p.data then [] else cwd
  normalizeFrom start segs

/-- Rendering of an absolute path from its components, as str(Path) renders
BASE_DIR inside the error message. -/
def pathToString (parts : List String) : String :=
  "/" ++ String.intercalate "/" parts

namespace Config

/-- Embeds Config.validate_path of src/mcp_server/config.py (lines 48 to 64)
only; the distinct validate_path of server.py, with its startswith textual
containment test, is embedded separately under the Server namespace below.
The OS canonicalization Path(os.path.expanduser(path)).resolve() — home
expansion, making the path absolute, following symlinks and eliminating
dot-dot segments — is abstracted into the resolve argument; resolvePath
composed with expanduser is its instance for a symlink-free filesystem.
BASE_DIR is the already-resolved root cached at startup (config.py line 26).
The containment check resolved.relative_to(BASE_DIR) succeeds exactly when
the components of BASE_DIR are a prefix of the components of the resolved
path; on failure the ValueError of the source is the error value. -/
def validate_path (resolve : String → List String) (BASE_DIR : List String)
    (path : String) : Except String (List String) :=
  let resolved := resolve path
  if BASE_DIR.isPrefixOf resolved then Except.ok resolved
  else Except.error ("Path must be under " ++ pathToString BASE_DIR)

end Config

/-- Models str.startswith: the pattern is a character-list prefix of the
string.  This is a textual test, not a path-component test: it holds for
/home/united/x against /home/u. -/
def strStartsWith (s pre : String) : Bool :=
  List.isPrefixOf pre.data s.data

namespace Server

/-- Embeds validate_path of src/mcp_server/server.py (lines 136 to 144), the
second path-sandbox implementation cited by the sandbox property and the one
called by every tool of server.py.  It resolves the input with
os.path.realpath(os.path.expanduser(path)) — abstracted into the realpath
argument, applied after the home expansion — resolves BASE_DIR (the raw
configured string, server.py line 26) the same way, and then checks
containment with resolved.startswith(base_resolved), a string-prefix test on
the rendered paths; on failure it raises the ValueError of the source.
Unlike the relative_to check of Config.validate_path in config.py, this
textual test does not respect component boundaries. -/
def validate_path (realpath : String → String) (home BASE_DIR : String)
    (path : String) : Except String String :=
  let resolved := realpath (expanduser home path)
  let base_resolved := realpath BASE_DIR
  if strStartsWith resolved base_resolved then Except.ok resolved
  else Except.error ("Path must be under " ++ BASE_DIR)

end Server

/-! ## save_file (src/mcp_server/toolsets/system.py lines 125 to 147) -/

/-- Embeds _format_size (system.py lines 32 to 39).  The one-decimal
rendering of the f-string is modelled by rounding half away from zero; the
tie-breaking of IEEE formatting is immaterial to every property proved
below. -/
def _format_size (size : Nat) : String :=
  if size < 1024 then toString size ++ "B"
  else if size < 1024 * 1024 then
    let d := (size * 10 + 512) / 1024
    toString (d / 10) ++ "." ++ toString (d % 10) ++ "KB"
  else
    let d := (size * 10 + 524288) / (1024 * 1024)
    toString (d / 10) ++ "." ++ toString (d % 10) ++ "MB"

/-- Embeds save_file (system.py lines 125 to 147) over a filesystem modelled
as a mapping from resolved absolute paths to file contents.  The function
first validates the path (a ValueError propagates as the error case), then
refuses to overwrite an existing file unless overwrite is set (returning an
Error string as its result, as the source does), then writes the file, and
only afterwards chooses the verb of the success message by re-testing
existence of the target — which at that point always holds.  The byte size
reported is the size of the file just written.  Parent-directory creation
has no observable effect in this filesystem model. -/
def save_file (resolve : String → List String) (BASE_DIR : List String)
    (fs : List (List String × String)) (path content : String)
    (overwrite : Bool) :
    Except String (String × List (List String × String)) :=
  match Config.validate_path resolve BASE_DIR path with
  | Except.error e => Except.error e
  | Except.ok resolved =>
    if (fs.find? (fun q => q.1 == resolved)).isSome ∧ overwrite = false then
      Except.ok
        ("Error: File " ++ path ++ " already exists. Set overwrite=true to replace.",
         fs)
    else
      let fs2 := (resolved, content) :: fs.filter (fun q => q.1 != resolved)
      let size := _format_size content.utf8ByteSize
      let action :=
        if (fs2.find? (fun q => q.1 == resolved)).isSome then "Overwrote"
        else "Created"
      Except.ok (action ++ " file: " ++ path ++ " (" ++ size ++ ")", fs2)

/-! ## The persistent shell session manager
(src/mcp_server/toolsets/system.py lines 25 to 55 and 296 to 408) -/

/-- Events recorded while persistent_shell runs: taking and releasing the
registry mutex _shell_lock, spawning the shell process of a new session,
writing a command line to the stdin pipe of the process, and one event per
0.1 s sleep of the poll loop. -/
inductive Event where
  | lockAcquire
  | lockRelease
  | spawnProcess
  | stdinWrite (line : String)
  | pollSleep
deriving DecidableEq

/-- Embeds the module-level mutable state of system.py lines 27 to 28: the
session registry _shell_sessions (the process handle itself is abstracted
away, so only the key set matters), the activity map
_session_last_activity, and additionally the list of session ids whose
process the server has terminated, recording the observable
process.terminate() calls. -/
structure ShellState where
  sessions : List String
  lastActivity : List (String × Nat)
  terminated : List String
deriving DecidableEq

/-- Environment abstracting the operating system around one persistent_shell
call: whether the process of a given session has exited at a given instant
(process.poll() is not None), the content of the scratch output file at a
given instant (none when the file does not exist yet), the name of the
scratch file handed out by tempfile, and whether writing to the stdin pipe
raises (carrying str(e) when it does). -/
structure ShellEnv where
  exited : String → Nat → Bool
  file : Nat → Option String
  scratch : String
  writeFails : Option String

/-- Embeds the completion sentinel of system.py line 349. -/
def doneMarker (sid : String) : String :=
  "__DONE_" ++ sid ++ "__"

/-- Outcome of the poll loop: either the process was observed dead during a
poll, or the loop finished (by sentinel or by running out of time) with the
output captured so far and the instant at which it stopped. -/
inductive PollOutcome where
  | procExited
  | loopEnd (output : String) (tEnd : Nat)
deriving DecidableEq

/-- Embeds the poll loop of persistent_shell (system.py lines 360 to 379).
The loop runs while now - t0 < timeout10; remaining is the number of ticks
still allowed, so the current instant is t0 + (timeout10 - remaining).  Each
iteration reads the scratch file if it exists (keeping the content as the
captured output and breaking when it holds the sentinel), then checks
whether the process has exited, then sleeps 0.1 s.  The returned event list
holds one pollSleep per completed iteration. -/
def pollLoop (env : ShellEnv) (sid marker : String) (t0 timeout10 : Nat) :
    Nat → String → PollOutcome × List Event
  | 0, output => (.loopEnd output (t0 + timeout10), [])
  | n + 1, output =>
    let now := t0 + (timeout10 - (n + 1))
    let read := env.file now
    let newOutput :=
      match read with
      | some content =>
        if strContains content marker || content != output then content
        else output
      | none => output
    let isDone :=
      match read with
      | some content => strContains content marker
      | none => false
    if isDone then (.loopEnd newOutput now, [])
    else if env.exited sid now then (.procExited, [])
    else
      let r := pollLoop env sid marker t0 timeout10 n newOutput
      (r.1, .pollSleep :: r.2)

/-- Embeds one body iteration of _cleanup_old_sessions (system.py lines 47
to 55) for one session id of the key snapshot: when the session has been
idle longer than 3600 s (36000 ticks), terminate and drop its process if it
is still registered, and drop its activity entry. -/
def cleanupStep (t : Nat) (st : ShellState) (sid : String) : ShellState :=
  match getKey st.lastActivity sid with
  | none => st
  | some last =>
    if 36000 < t - last then
      let st1 :=
        if sid ∈ st.sessions then
          { st with
              sessions := delId st.sessions sid
              terminated := sid :: st.terminated }
        else st
      { st1 with lastActivity := delKey st1.lastActivity sid }
    else st

/-- Embeds _cleanup_old_sessions (system.py lines 42 to 55): iterate the
cleanup body over a snapshot of the keys of _session_last_activity, at
current time t.  The none branch of cleanupStep is unreachable here because
a dict has unique keys. -/
def _cleanup_old_sessions (t : Nat) (st : ShellState) : ShellState :=
  (st.lastActivity.map Prod.fst).foldl (cleanupStep t) st

/-- Embeds the try block of persistent_shell (system.py lines 341 to 408)
run for session sid at instant t0: refresh the activity timestamp, build
the redirect-and-sentinel command line, write it to the stdin pipe (the
except branch terminates and unregisters the session and reports the
exception), then poll.  A process death observed by the poll reaps the
session; otherwise the scratch file is removed, idle sessions are reaped,
the sentinel is stripped, a timeout suffix is appended when the budget was
exhausted, and a fresh session prefixes its id to the returned output. -/
def executeCommand (env : ShellEnv) (command sid : String) (timeout t0 : Nat)
    (st0 : ShellState) (is_new : Bool) (evs0 : List Event) :
    String × ShellState × List Event :=
  let st := { st0 with lastActivity := setKey st0.lastActivity sid t0 }
  let marker := doneMarker sid
  let fullCmd :=
    command ++ " > \"" ++ env.scratch ++ "\" 2>&1; echo " ++ marker ++ "\n"
  match env.writeFails with
  | some emsg =>
    let st1 :=
      if sid ∈ st.sessions then
        { st with
            sessions := delId st.sessions sid
            terminated := sid :: st.terminated
            lastActivity :=
              if (getKey st.lastActivity sid).isSome then
                delKey st.lastActivity sid
              else st.lastActivity }
      else st
    ("Error: " ++ emsg, st1, evs0)
  | none =>
    let r := pollLoop env sid marker t0 (10 * timeout) (10 * timeout) ""
    match r.1 with
    | .procExited =>
      ("Error: Shell process exited unexpectedly.",
       { st with sessions := delId st.sessions sid },
       evs0 ++ .stdinWrite fullCmd :: r.2)
    | .loopEnd rawOutput tEnd =>
      let st1 := _cleanup_old_sessions tEnd st
      let out1 := pyStrip (pyReplace rawOutput marker "")
      let out2 :=
        if 10 * timeout ≤ tEnd - t0 then
          out1 ++ "\n[Timed out after " ++ toString timeout ++ "s]"
        else out1
      let pre := if is_new then "Session: " ++ sid ++ "\n" else ""
      (if out2 = "" then pre ++ "Command completed with no output"
       else pre ++ out2,
       st1, evs0 ++ .stdinWrite fullCmd :: r.2)

/-- Embeds persistent_shell (system.py lines 296 to 408).  An empty session
id spawns a fresh shell process under freshId, registers it with the
current timestamp and, when the command is empty or whitespace, returns at
once with the new id; a non-empty id must be registered (else the not-found
error) and its process must still be alive (else the session is reaped with
the process-exited error); in the remaining cases the command is executed.
This is the body of the with _shell_lock block of the source function. -/
def persistent_shell_body (env : ShellEnv) (command session_id : String)
    (timeout : Nat) (freshId : String) (t0 : Nat) (st : ShellState) :
    String × ShellState × List Event :=
    if session_id = "" then
      let sid := freshId
      let st1 : ShellState :=
        { st with
            sessions := setId st.sessions sid
            lastActivity := setKey st.lastActivity sid t0 }
      if pyStrip command = "" then
        ("Created new shell session: " ++ sid ++
           "\n\nUse this ID for subsequent commands.",
         st1, [.spawnProcess])
      else
        executeCommand env command sid timeout t0 st1 true [.spawnProcess]
    else
      if session_id ∉ st.sessions then
        ("Error: Session " ++ session_id ++ " not found. Create a new session.",
         st, [])
      else if env.exited session_id t0 then
        ("Error: Shell process has exited. Create a new session.",
         { st with sessions := delId st.sessions session_id }, [])
      else
        executeCommand env command session_id timeout t0 st false []

/-- Wraps the body in the with _shell_lock block (system.py line 307): the
lock is taken before anything else the call does and released after
everything, which the trace records explicitly. -/
def persistent_shell (env : ShellEnv) (command session_id : String)
    (timeout : Nat) (freshId : String) (t0 : Nat) (st : ShellState) :
    String × ShellState × List Event :=
  let body := persistent_shell_body env command session_id timeout freshId t0 st
  (body.1, body.2.1, .lockAcquire :: body.2.2 ++ [.lockRelease])

/-! ## Helper lemmas about the dict model -/

theorem getKey_cons {α : Type} (a : String) (v : α) (m : List (String × α))
    (k : String) :
    getKey ((a, v) :: m) k = if a = k then some v else getKey m k := by
  simp only [getKey, List.find?_cons]
  cases h : (((a, v) : String × α).1 == k) with
  | false =>
    have : a ≠ k := by simpa using h
    simp [this]
  | true =>
    have : a = k := by simpa using h
    simp [this]

theorem getKey_filter_ne {α : Type} (m : List (String × α)) (x k : String)
    (h : k ≠ x) :
    getKey (m.filter (fun p => p.1 != x)) k = getKey m k := by
  induction m with
  | nil => rfl
  | cons p m ih =>
    obtain ⟨a, v⟩ := p
    by_cases hp : a = x
    · have hak : a ≠ k := fun hc => h (hc ▸ hp ▸ rfl)
      simp [List.filter_cons, hp, getKey_cons, hak, ih, Ne.symm h]
    · simp only [List.filter_cons]
      have : ((a, v).1 != x) = true := by simpa using hp
      rw [this]
      simp only [if_true]
      rw [getKey_cons, getKey_cons, ih]

theorem getKey_setKey_self {α : Type} (m : List (String × α)) (k : String)
    (v : α) : getKey (setKey m k v) k = some v := by
  simp [setKey, getKey_cons]

theorem getKey_setKey_ne {α : Type} (m : List (String × α)) (k k' : String)
    (v : α) (h : k' ≠ k) : getKey (setKey m k v) k' = getKey m k' := by
  simp only [setKey]
  rw [getKey_cons, if_neg (fun hc => h hc.symm), getKey_filter_ne _ _ _ h]

theorem getKey_delKey_self {α : Type} (m : List (String × α)) (k : String) :
    getKey (delKey m k) k = none := by
  induction m with
  | nil => rfl
  | cons p m ih =>
    obtain ⟨a, v⟩ := p
    by_cases hp : a = k
    · simp [delKey, List.filter_cons, hp] at ih ⊢
      exact ih
    · simp only [delKey, List.filter_cons] at ih ⊢
      have : ((a, v).1 != k) = true := by simpa using hp
      rw [this]
      simp only [if_true]
      rw [getKey_cons, if_neg hp]
      exact ih

theorem getKey_delKey_ne {α : Type} (m : List (String × α)) (x k : String)
    (h : k ≠ x) : getKey (delKey m x) k = getKey m k :=
  getKey_filter_ne m x k h

theorem getKey_none_delKey {α : Type} (m : List (String × α)) (x k : String)
    (h : getKey m k = none) : getKey (delKey m x) k = none := by
  by_cases hx : k = x
  · subst hx; exact getKey_delKey_self m k
  · rw [getKey_delKey_ne m x k hx]; exact h

theorem mem_keys_of_getKey {α : Type} {m : List (String × α)} {k : String}
    {v : α} (h : getKey m k = some v) : k ∈ m.map Prod.fst := by
  simp only [getKey, Option.map_eq_some'] at h
  obtain ⟨p, hp, _⟩ := h
  have hmem := List.mem_of_find?_eq_some hp
  have hpred := List.find?_some hp
  have : p.1 = k := by simpa using hpred
  subst this
  exact List.mem_map_of_mem Prod.fst hmem

theorem mem_delId (l : List String) (x a : String) :
    a ∈ delId l x ↔ a ∈ l ∧ a ≠ x := by
  simp [delId, List.mem_filter]

theorem not_mem_delId_self (l : List String) (x : String) : x ∉ delId l x := by
  intro h
  exact ((mem_delId l x x).mp h).2 rfl

theorem mem_setId_self (l : List String) (x : String) : x ∈ setId l x :=
  List.mem_cons_self x _

/-! ## Helper lemmas about the idle cleanup -/

theorem cleanupStep_sessions_subset (t : Nat) (st : ShellState) (k a : String)
    (h : a ∈ (cleanupStep t st k).sessions) : a ∈ st.sessions := by
  cases hk : getKey st.lastActivity k with
  | none => simp only [cleanupStep, hk] at h; exact h
  | some last =>
    simp only [cleanupStep, hk] at h
    by_cases hgt : 36000 < t - last
    · rw [if_pos hgt] at h
      by_cases hm : k ∈ st.sessions
      · rw [if_pos hm] at h
        exact ((mem_delId _ _ _).mp h).1
      · rw [if_neg hm] at h; exact h
    · rw [if_neg hgt] at h; exact h

theorem cleanupStep_terminated_mono (t : Nat) (st : ShellState) (k a : String)
    (h : a ∈ st.terminated) : a ∈ (cleanupStep t st k).terminated := by
  cases hk : getKey st.lastActivity k with
  | none => simp only [cleanupStep, hk]; exact h
  | some last =>
    simp only [cleanupStep, hk]
    by_cases hgt : 36000 < t - last
    · rw [if_pos hgt]
      by_cases hm : k ∈ st.sessions
      · rw [if_pos hm]
        exact List.mem_cons_of_mem k h
      · rw [if_neg hm]; exact h
    · rw [if_neg hgt]; exact h

theorem cleanupStep_LA_none (t : Nat) (st : ShellState) (k a : String)
    (h : getKey st.lastActivity a = none) :
    getKey (cleanupStep t st k).lastActivity a = none := by
  cases hk : getKey st.lastActivity k with
  | none => simp only [cleanupStep, hk]; exact h
  | some last =>
    simp only [cleanupStep, hk]
    by_cases hgt : 36000 < t - last
    · rw [if_pos hgt]
      by_cases hm : k ∈ st.sessions
      · rw [if_pos hm]
        exact getKey_none_delKey _ _ _ h
      · rw [if_neg hm]
        exact getKey_none_delKey _ _ _ h
    · rw [if_neg hgt]; exact h

theorem cleanupStep_of_ne (t : Nat) (st : ShellState) (k a : String)
    (hk : k ≠ a) :
    (a ∈ (cleanupStep t st k).sessions ↔ a ∈ st.sessions) ∧
    getKey (cleanupStep t st k).lastActivity a = getKey st.lastActivity a ∧
    (a ∈ (cleanupStep t st k).terminated ↔ a ∈ st.terminated) := by
  cases hg : getKey st.lastActivity k with
  | none => simp [cleanupStep, hg]
  | some last =>
    simp only [cleanupStep, hg]
    by_cases hgt : 36000 < t - last
    · rw [if_pos hgt]
      by_cases hm : k ∈ st.sessions
      · rw [if_pos hm]
        refine ⟨?_, ?_, ?_⟩
        · show a ∈ delId st.sessions k ↔ a ∈ st.sessions
          rw [mem_delId]
          exact ⟨fun h => h.1, fun h => ⟨h, fun hc => hk hc.symm⟩⟩
        · exact getKey_delKey_ne _ _ _ (fun hc => hk hc.symm)
        · show a ∈ k :: st.terminated ↔ a ∈ st.terminated
          constructor
          · intro h
            rcases List.mem_cons.mp h with hc | hc
            · exact absurd hc.symm hk
            · exact hc
          · exact List.mem_cons_of_mem k
      · rw [if_neg hm]
        exact ⟨Iff.rfl, getKey_delKey_ne _ _ _ (fun hc => hk hc.symm), Iff.rfl⟩
    · rw [if_neg hgt]
      exact ⟨Iff.rfl, rfl, Iff.rfl⟩

theorem cleanupStep_self_fresh (t : Nat) (st : ShellState) (a : String)
    (la : Nat) (h : getKey st.lastActivity a = some la)
    (hle : ¬ 36000 < t - la) : cleanupStep t st a = st := by
  simp only [cleanupStep, h]
  rw [if_neg hle]

theorem cleanupStep_self_stale (t : Nat) (st : ShellState) (a : String)
    (la : Nat) (h : getKey st.lastActivity a = some la)
    (hgt : 36000 < t - la) :
    a ∉ (cleanupStep t st a).sessions ∧
    getKey (cleanupStep t st a).lastActivity a = none ∧
    (a ∈ st.sessions → a ∈ (cleanupStep t st a).terminated) := by
  simp only [cleanupStep, h]
  rw [if_pos hgt]
  by_cases hm : a ∈ st.sessions
  · rw [if_pos hm]
    exact ⟨not_mem_delId_self _ _, getKey_delKey_self _ _,
           fun _ => List.mem_cons_self a _⟩
  · rw [if_neg hm]
    exact ⟨hm, getKey_delKey_self _ _, fun hc => absurd hc hm⟩

theorem foldl_cleanup_fresh (t : Nat) (a : String) (la : Nat)
    (hle : ¬ 36000 < t - la) :
    ∀ (keys : List String) (st : ShellState),
      a ∈ st.sessions → getKey st.lastActivity a = some la →
      a ∉ st.terminated →
      a ∈ (keys.foldl (cleanupStep t) st).sessions ∧
      getKey (keys.foldl (cleanupStep t) st).lastActivity a = some la ∧
      a ∉ (keys.foldl (cleanupStep t) st).terminated := by
  intro keys
  induction keys with
  | nil => intro st h1 h2 h3; exact ⟨h1, h2, h3⟩
  | cons k ks ih =>
    intro st h1 h2 h3
    rw [List.foldl_cons]
    by_cases hk : k = a
    · subst hk
      rw [cleanupStep_self_fresh t st k la h2 hle]
      exact ih st h1 h2 h3
    · obtain ⟨i1, i2, i3⟩ := cleanupStep_of_ne t st k a hk
      exact ih _ (i1.mpr h1) (i2.trans h2) (fun hm => h3 (i3.mp hm))

theorem foldl_not_mem_sessions (t : Nat) (a : String) :
    ∀ (keys : List String) (st : ShellState), a ∉ st.sessions →
      a ∉ (keys.foldl (cleanupStep t) st).sessions := by
  intro keys
  induction keys with
  | nil => intro st h; exact h
  | cons k ks ih =>
    intro st h
    rw [List.foldl_cons]
    exact ih _ (fun hc => h (cleanupStep_sessions_subset t st k a hc))

theorem foldl_term_mono (t : Nat) (a : String) :
    ∀ (keys : List String) (st : ShellState), a ∈ st.terminated →
      a ∈ (keys.foldl (cleanupStep t) st).terminated := by
  intro keys
  induction keys with
  | nil => intro st h; exact h
  | cons k ks ih =>
    intro st h
    rw [List.foldl_cons]
    exact ih _ (cleanupStep_terminated_mono t st k a h)

theorem foldl_LA_none (t : Nat) (a : String) :
    ∀ (keys : List String) (st : ShellState),
      getKey st.lastActivity a = none →
      getKey (keys.foldl (cleanupStep t) st).lastActivity a = none := by
  intro keys
  induction keys with
  | nil => intro st h; exact h
  | cons k ks ih =>
    intro st h
    rw [List.foldl_cons]
    exact ih _ (cleanupStep_LA_none t st k a h)

theorem foldl_cleanup_stale (t : Nat) (a : String) :
    ∀ (keys : List String) (st : ShellState) (la : Nat),
      a ∈ keys → getKey st.lastActivity a = some la → 36000 < t - la →
      a ∉ (keys.foldl (cleanupStep t) st).sessions ∧
      getKey (keys.foldl (cleanupStep t) st).lastActivity a = none ∧
      (a ∈ st.sessions → a ∈ (keys.foldl (cleanupStep t) st).terminated) := by
  intro keys
  induction keys with
  | nil => intro st la h; cases h
  | cons k ks ih =>
    intro st la hmem h2 hgt
    rw [List.foldl_cons]
    by_cases hk : k = a
    · subst hk
      obtain ⟨s1, s2, s3⟩ := cleanupStep_self_stale t st k la h2 hgt
      exact ⟨foldl_not_mem_sessions t k ks _ s1,
             foldl_LA_none t k ks _ s2,
             fun hm => foldl_term_mono t k ks _ (s3 hm)⟩
    · have hmem2 : a ∈ ks := by
        cases List.mem_cons.mp hmem with
        | inl hc => exact absurd hc.symm hk
        | inr hc => exact hc
      obtain ⟨i1, i2, i3⟩ := cleanupStep_of_ne t st k a hk
      obtain ⟨r1, r2, r3⟩ := ih _ la hmem2 (i2.trans h2) hgt
      exact ⟨r1, r2, fun hm => r3 (i1.mpr hm)⟩

theorem cleanup_preserves (t : Nat) (st : ShellState) (a : String) (la : Nat)
    (h1 : a ∈ st.sessions) (h2 : getKey st.lastActivity a = some la)
    (h3 : a ∉ st.terminated) (hle : ¬ 36000 < t - la) :
    a ∈ (_cleanup_old_sessions t st).sessions ∧
    getKey (_cleanup_old_sessions t st).lastActivity a = some la ∧
    a ∉ (_cleanup_old_sessions t st).terminated :=
  foldl_cleanup_fresh t a la hle _ st h1 h2 h3

theorem cleanup_removes (t : Nat) (st : ShellState) (a : String) (la : Nat)
    (h2 : getKey st.lastActivity a = some la) (hgt : 36000 < t - la) :
    a ∉ (_cleanup_old_sessions t st).sessions ∧
    getKey (_cleanup_old_sessions t st).lastActivity a = none ∧
    (a ∈ st.sessions → a ∈ (_cleanup_old_sessions t st).terminated) :=
  foldl_cleanup_stale t a _ st la (mem_keys_of_getKey h2) h2 hgt

/-! ## Helper lemmas about the poll loop -/

theorem pollLoop_events (env : ShellEnv) (sid marker : String) (t0 T : Nat) :
    ∀ (n : Nat) (output : String) (e : Event),
      e ∈ (pollLoop env sid marker t0 T n output).2 → e = .pollSleep := by
  intro n
  induction n with
  | zero => intro output e h; simp [pollLoop] at h
  | succ m ih =>
    intro output e h
    simp only [pollLoop] at h
    split at h
    · simp at h
    · split at h
      · simp at h
      · rcases List.mem_cons.mp h with hc | hc
        · exact hc
        · exact ih _ e hc

theorem pollLoop_quiet (env : ShellEnv) (sid marker : String) (t0 T : Nat)
    (hm : ∀ t c, env.file t = some c → strContains c marker = false)
    (he : ∀ t, env.exited sid t = false) :
    ∀ (n : Nat) (output : String), ∃ out,
      pollLoop env sid marker t0 T n output =
        (.loopEnd out (t0 + T), List.replicate n .pollSleep) := by
  intro n
  induction n with
  | zero => intro output; exact ⟨output, rfl⟩
  | succ m ih =>
    intro output
    cases hread : env.file (t0 + (T - (m + 1))) with
    | none =>
      obtain ⟨out, hout⟩ := ih output
      exact ⟨out, by simp [pollLoop, hread, he, hout, List.replicate_succ]⟩
    | some c =>
      have hc := hm _ _ hread
      obtain ⟨out, hout⟩ := ih (if c = output then output else c)
      exact ⟨out, by
        simp [pollLoop, hread, hc, he, hout, List.replicate_succ]⟩

theorem pollLoop_procExited (env : ShellEnv) (sid marker : String)
    (t0 T : Nat) (hT : 2 ≤ T) (hf : ∀ t, env.file t = none)
    (he0 : env.exited sid t0 = false) (he1 : env.exited sid (t0 + 1) = true) :
    ∃ evs, pollLoop env sid marker t0 T T "" = (.procExited, evs) := by
  obtain ⟨m, rfl⟩ : ∃ m, T = m + 2 := ⟨T - 2, by omega⟩
  have h1 : m + 2 - (m + 2) = 0 := by omega
  have h2 : m + 2 - (m + 1) = 1 := by omega
  refine ⟨[.pollSleep], ?_⟩
  simp [pollLoop, hf, h1, h2, he0, he1]

/-! ## Helper lemmas about strings and the session tool branches -/

theorem empty_append_str (s : String) : "" ++ s = s := by
  apply String.ext
  rw [String.data_append]
  rfl

theorem append_close_ne_empty (a : String) : a ++ "s]" ≠ "" := by
  intro h
  have h2 : (a ++ "s]").length = ("" : String).length := by rw [h]
  rw [String.length_append] at h2
  have h3 : ("s]" : String).length = 2 := rfl
  have h4 : ("" : String).length = 0 := rfl
  omega

theorem overwrote_ne_created (a b : String) :
    "Overwrote file: " ++ a ≠ "Created file: " ++ b := by
  intro h
  have hO : ("Overwrote file: " ++ a).data.head? = some 'O' := by
    rw [String.data_append]; rfl
  have hC : ("Created file: " ++ b).data.head? = some 'C' := by
    rw [String.data_append]; rfl
  rw [h, hC] at hO
  exact absurd (Option.some.inj hO) (by decide)

theorem overwrote_msg_eq (path size : String) :
    "Overwrote" ++ " file: " ++ path ++ " (" ++ size ++ ")" =
      "Overwrote file: " ++ (path ++ " (" ++ size ++ ")") := by
  rw [show ("Overwrote" : String) ++ " file: " = "Overwrote file: " from rfl]
  simp [String.append_assoc]

theorem pshell_notfound (env : ShellEnv) (cmd sid : String) (timeout : Nat)
    (fresh : String) (t0 : Nat) (st : ShellState) (hsid : sid ≠ "")
    (h : sid ∉ st.sessions) :
    persistent_shell env cmd sid timeout fresh t0 st =
      ("Error: Session " ++ sid ++ " not found. Create a new session.", st,
       [Event.lockAcquire, Event.lockRelease]) := by
  simp [persistent_shell, persistent_shell_body, hsid, h]

theorem pshell_procExited_lookup (env : ShellEnv) (cmd sid : String)
    (timeout : Nat) (fresh : String) (t0 : Nat) (st : ShellState)
    (hsid : sid ≠ "") (hmem : sid ∈ st.sessions)
    (hex : env.exited sid t0 = true) :
    persistent_shell env cmd sid timeout fresh t0 st =
      ("Error: Shell process has exited. Create a new session.",
       { st with sessions := delId st.sessions sid },
       [Event.lockAcquire, Event.lockRelease]) := by
  simp [persistent_shell, persistent_shell_body, hsid, hmem, hex]

theorem executeCommand_events (env : ShellEnv) (cmd sid : String)
    (timeout t0 : Nat) (st : ShellState) (b : Bool) (evs0 : List Event) :
    ∀ e ∈ (executeCommand env cmd sid timeout t0 st b evs0).2.2,
      e ∈ evs0 ∨
      e = Event.stdinWrite (cmd ++ " > \"" ++ env.scratch ++ "\" 2>&1; echo " ++
        doneMarker sid ++ "\n") ∨
      e = Event.pollSleep := by
  intro e h
  simp only [executeCommand] at h
  split at h
  · exact Or.inl h
  · split at h
    · rcases List.mem_append.mp h with h1 | h1
      · exact Or.inl h1
      · rcases List.mem_cons.mp h1 with h2 | h2
        · exact Or.inr (Or.inl h2)
        · exact Or.inr (Or.inr
            (pollLoop_events env sid (doneMarker sid) t0 (10 * timeout) _ _ e h2))
    · rcases List.mem_append.mp h with h1 | h1
      · exact Or.inl h1
      · rcases List.mem_cons.mp h1 with h2 | h2
        · exact Or.inr (Or.inl h2)
        · exact Or.inr (Or.inr
            (pollLoop_events env sid (doneMarker sid) t0 (10 * timeout) _ _ e h2))

theorem pshell_body_events (env : ShellEnv) (cmd sid : String) (timeout : Nat)
    (fresh : String) (t0 : Nat) (st : ShellState) :
    ∀ e ∈ (persistent_shell_body env cmd sid timeout fresh t0 st).2.2,
      e ≠ Event.lockAcquire ∧ e ≠ Event.lockRelease := by
  intro e h
  simp only [persistent_shell_body] at h
  split at h
  · split at h
    · simp only [List.mem_singleton] at h
      subst h
      exact ⟨by simp, by simp⟩
    · rcases executeCommand_events env cmd fresh timeout t0 _ true [.spawnProcess] e h with
        h1 | h1 | h1
      · simp only [List.mem_singleton] at h1
        subst h1
        exact ⟨by simp, by simp⟩
      · subst h1
        exact ⟨by simp, by simp⟩
      · subst h1
        exact ⟨by simp, by simp⟩
  · split at h
    · simp at h
    · split at h
      · simp at h
      · rcases executeCommand_events env cmd sid timeout t0 st false [] e h with
          h1 | h1 | h1
        · simp at h1
        · subst h1
          exact ⟨by simp, by simp⟩
        · subst h1
          exact ⟨by simp, by simp⟩

theorem executeCommand_timedOut (env : ShellEnv) (cmd sid : String)
    (timeout t0 : Nat) (st : ShellState) (b : Bool) (evs0 : List Event)
    (hm : ∀ t c, env.file t = some c → strContains c (doneMarker sid) = false)
    (he : ∀ t, env.exited sid t = false) (hw : env.writeFails = none) :
    ∃ raw,
      executeCommand env cmd sid timeout t0 st b evs0 =
        ((if b = true then "Session: " ++ sid ++ "\n" else "") ++
           (pyStrip (pyReplace raw (doneMarker sid) "") ++
             "\n[Timed out after " ++ toString timeout ++ "s]"),
         _cleanup_old_sessions (t0 + 10 * timeout)
           { st with lastActivity := setKey st.lastActivity sid t0 },
         evs0 ++ Event.stdinWrite (cmd ++ " > \"" ++ env.scratch ++
             "\" 2>&1; echo " ++ doneMarker sid ++ "\n") ::
           List.replicate (10 * timeout) Event.pollSleep) := by
  obtain ⟨out, hpoll⟩ :=
    pollLoop_quiet env sid (doneMarker sid) t0 (10 * timeout) hm he
      (10 * timeout) ""
  refine ⟨out, ?_⟩
  simp only [executeCommand, hw]
  rw [hpoll]
  have ht : t0 + 10 * timeout - t0 = 10 * timeout := by omega
  simp [ht, append_close_ne_empty]

theorem executeCommand_procExited (env : ShellEnv) (cmd sid : String)
    (timeout t0 : Nat) (st : ShellState) (b : Bool) (evs0 : List Event)
    (hw : env.writeFails = none) (hT : 2 ≤ 10 * timeout)
    (hf : ∀ t, env.file t = none) (he0 : env.exited sid t0 = false)
    (he1 : env.exited sid (t0 + 1) = true) :
    ∃ evs,
      executeCommand env cmd sid timeout t0 st b evs0 =
        ("Error: Shell process exited unexpectedly.",
         { st with
             sessions := delId st.sessions sid
             lastActivity := setKey st.lastActivity sid t0 },
         evs) := by
  obtain ⟨evs, hpoll⟩ :=
    pollLoop_procExited env sid (doneMarker sid) t0 (10 * timeout) hT hf he0 he1
  refine ⟨evs0 ++ Event.stdinWrite (cmd ++ " > \"" ++ env.scratch ++
      "\" 2>&1; echo " ++ doneMarker sid ++ "\n") :: evs, ?_⟩
  simp only [executeCommand, hw]
  rw [hpoll]

theorem executeCommand_writeFails (env : ShellEnv) (cmd sid : String)
    (timeout t0 : Nat) (st : ShellState) (b : Bool) (evs0 : List Event)
    (emsg : String) (hw : env.writeFails = some emsg)
    (hmem : sid ∈ st.sessions) :
    executeCommand env cmd sid timeout t0 st b evs0 =
      ("Error: " ++ emsg,
       { st with
           sessions := delId st.sessions sid
           lastActivity := delKey (setKey st.lastActivity sid t0) sid
           terminated := sid :: st.terminated },
       evs0) := by
  simp only [executeCommand, hw]
  rw [if_pos hmem, getKey_setKey_self]
  simp

theorem pshell_exec_eq (env : ShellEnv) (cmd sid : String) (timeout : Nat)
    (fresh : String) (t0 : Nat) (st : ShellState) (res : String)
    (st2 : ShellState) (evs : List Event) (hsid : sid ≠ "")
    (hmem : sid ∈ st.sessions) (he0 : env.exited sid t0 = false)
    (hexec : executeCommand env cmd sid timeout t0 st false [] =
      (res, st2, evs)) :
    persistent_shell env cmd sid timeout fresh t0 st =
      (res, st2, Event.lockAcquire :: evs ++ [Event.lockRelease]) := by
  simp [persistent_shell, persistent_shell_body, hsid, hmem, he0, hexec]

theorem pshell_selfreap (env : ShellEnv) (cmd sid fresh : String)
    (timeout t0 : Nat) (st : ShellState) (hsid : sid ≠ "")
    (hmem : sid ∈ st.sessions) (he : ∀ t, env.exited sid t = false)
    (hm : ∀ t c, env.file t = some c → strContains c (doneMarker sid) = false)
    (hw : env.writeFails = none) (hbig : 36000 < 10 * timeout) :
    sid ∉ (persistent_shell env cmd sid timeout fresh t0 st).2.1.sessions ∧
    sid ∈ (persistent_shell env cmd sid timeout fresh t0 st).2.1.terminated := by
  obtain ⟨raw, hexec⟩ :=
    executeCommand_timedOut env cmd sid timeout t0 st false [] hm he hw
  have hps := pshell_exec_eq env cmd sid timeout fresh t0 st _ _ _ hsid hmem
    (he t0) hexec
  rw [hps]
  obtain ⟨c1, c2, c3⟩ := cleanup_removes (t0 + 10 * timeout)
    { st with lastActivity := setKey st.lastActivity sid t0 } sid t0
    (getKey_setKey_self _ _ _) (by omega)
  exact ⟨c1, c3 hmem⟩

/-! ## The verified properties -/

/-- C1: the claim fails on the cited code.  The path sandbox of server.py
(validate_path, lines 136 to 144) checks containment of the canonically
resolved path with a string-prefix test against the resolved root, so a
sandbox rooted at /home/u accepts /home/united/x and returns it resolved,
although its canonical resolution is neither the root nor a descendant of
it — the claimed universal rejection property is violated.  The function
does reject /home/u/../etc/passwd (resolved to /etc/passwd) and accept
/home/u/sub/file.txt, and the other cited implementation,
Config.validate_path of config.py, uses the component-wise relative_to
check and rejects the failing input, which marks the textual test of
server.py as the slip.  All evaluations use the lexical resolution of a
symlink-free filesystem. -/
theorem claim_C1 :
    Server.validate_path (fun q => pathToString (resolvePath [] q)) "/root"
        "/home/u" "/home/united/x" = Except.ok "/home/united/x" ∧
    (["home", "u"] : List String).isPrefixOf
        (resolvePath [] (expanduser "/root" "/home/united/x")) = false ∧
    Server.validate_path (fun q => pathToString (resolvePath [] q)) "/root"
        "/home/u" "/home/u/../etc/passwd" =
      Except.error ("Path must be under " ++ "/home/u") ∧
    Server.validate_path (fun q => pathToString (resolvePath [] q)) "/root"
        "/home/u" "/home/u/sub/file.txt" = Except.ok "/home/u/sub/file.txt" ∧
    Config.validate_path (fun q => resolvePath [] (expanduser "/root" q))
        ["home", "u"] "/home/united/x" =
      Except.error ("Path must be under " ++ pathToString ["home", "u"]) :=
  ⟨rfl, by decide, rfl, rfl, rfl⟩

/-- C2: for every registered operation and every argument mapping — including
mappings of the wrong shape, which make the binding raise — the executor
returns normally with a string: the return value coerced by str on success,
and on any failure a string beginning with the Error marker and containing
the diagnostic traceback. -/
theorem claim_C2 (f : PyFunc) (kwargs : List (String × PyVal)) :
    (∃ s, executor f kwargs = Except.ok s) ∧
    (∀ v, callPyFunc f kwargs = Except.ok v →
      executor f kwargs = Except.ok (pyStr v)) ∧
    (∀ e, callPyFunc f kwargs = Except.error e →
      executor f kwargs =
        Except.ok ("Error: " ++ e.msg ++ "\n" ++ e.trace)) := by
  refine ⟨?_, ?_, ?_⟩
  · cases h : callPyFunc f kwargs with
    | ok v => exact ⟨pyStr v, by simp [executor, h]⟩
    | error e =>
      exact ⟨"Error: " ++ e.msg ++ "\n" ++ e.trace, by simp [executor, h]⟩
  · intro v h; simp [executor, h]
  · intro e h; simp [executor, h]

/-- C2 witness: a concrete operation of one string parameter, called once with
a well-shaped mapping (string success) and once with an argument name its
signature cannot accept (Error-marked string with the trace, returned, not
raised). -/
theorem claim_C2_witness :
    executor ⟨"greet", [⟨"x", some PyType.pStr, none⟩],
        fun _ => Except.ok (PyVal.vStr "hi")⟩ [("x", PyVal.vStr "a")] =
      Except.ok "hi" ∧
    executor ⟨"greet", [⟨"x", some PyType.pStr, none⟩],
        fun _ => Except.ok (PyVal.vStr "hi")⟩ [("y", PyVal.vNone)] =
      Except.ok ("Error: " ++ "got an unexpected keyword argument" ++ "\n" ++
        "Traceback (most recent call last):\nTypeError: got an unexpected keyword argument") :=
  ⟨(claim_C2 ⟨"greet", [⟨"x", some PyType.pStr, none⟩],
      fun _ => Except.ok (PyVal.vStr "hi")⟩ [("x", PyVal.vStr "a")]).2.1
      (PyVal.vStr "hi") rfl,
   (claim_C2 ⟨"greet", [⟨"x", some PyType.pStr, none⟩],
      fun _ => Except.ok (PyVal.vStr "hi")⟩ [("y", PyVal.vNone)]).2.2 _ rfl⟩

/-- C7: in every derived parameter schema, a parameter is required exactly
when it carries no default, and the default field always carries the
declared default of the parameter; in particular the signature
(a: str, b: int = 5) derives a required with no default of type string and
b optional with default 5 of type number. -/
theorem claim_C7 :
    (∀ (descs : List (String × String)) (params : List PyParam)
       (pname : String) (pd : ParameterDef),
       (pname, pd) ∈ buildParameters descs params →
       ((pd.required = true) ↔ pd.default = none) ∧
       ∃ p, p ∈ params ∧ p.name = pname ∧ pd.default = p.default) ∧
    buildParameters [("a", "first"), ("b", "second")]
      [⟨"a", some PyType.pStr, none⟩,
       ⟨"b", some PyType.pInt, some (PyVal.vInt 5)⟩] =
      [("a", ⟨"string", "first", true, none, none⟩),
       ("b", ⟨"number", "second", false, some (PyVal.vInt 5), none⟩)] := by
  constructor
  · intro descs params pname pd hmem
    simp only [buildParameters, List.mem_map] at hmem
    obtain ⟨p, hp, heq⟩ := hmem
    have h1 : p.name = pname := congrArg Prod.fst heq
    have h2 : buildParam descs p = pd := congrArg Prod.snd heq
    subst h2
    constructor
    · cases hd : p.default with
      | none => simp [buildParam, hd]
      | some d => simp [buildParam, hd]
    · refine ⟨p, (List.mem_filter.mp hp).1, h1, ?_⟩
      cases hd : p.default with
      | none => simp [buildParam, hd]
      | some d => simp [buildParam, hd]
  · decide

/-- C7 witness: the general part of C7 applied to the b parameter of the
concrete signature (a: str, b: int = 5). -/
theorem claim_C7_witness :
    (((⟨"number", "second", false, some (PyVal.vInt 5), none⟩ :
        ParameterDef).required = true) ↔
      (⟨"number", "second", false, some (PyVal.vInt 5), none⟩ :
        ParameterDef).default = none) ∧
    ∃ p, p ∈ [(⟨"a", some PyType.pStr, none⟩ : PyParam),
              ⟨"b", some PyType.pInt, some (PyVal.vInt 5)⟩] ∧
      p.name = "b" ∧
      (⟨"number", "second", false, some (PyVal.vInt 5), none⟩ :
        ParameterDef).default = p.default :=
  claim_C7.1 [("a", "first"), ("b", "second")]
    [⟨"a", some PyType.pStr, none⟩, ⟨"b", some PyType.pInt, some (PyVal.vInt 5)⟩]
    "b" ⟨"number", "second", false, some (PyVal.vInt 5), none⟩ (by decide)

/-- C8: registering two operations under the same name is last-write-wins:
after the second registration the lookup of that name yields exactly the
RegisteredTool of the second registration, so the first entry is no longer
reachable by that name. -/
theorem claim_C8 (registry : List (String × RegisteredTool)) (f g : PyFunc)
    (d1 d2 : String) (s1 s2 : Bool) (pd1 pd2 : List (String × String))
    (_hname : f.name = g.name) :
    get_tool (tool d2 s2 pd2 g (tool d1 s1 pd1 f registry).2).2 g.name =
      some (tool d2 s2 pd2 g (tool d1 s1 pd1 f registry).2).1 ∧
    ∀ r, get_tool (tool d2 s2 pd2 g (tool d1 s1 pd1 f registry).2).2 g.name =
        some r →
      r = (tool d2 s2 pd2 g (tool d1 s1 pd1 f registry).2).1 := by
  have h : get_tool (tool d2 s2 pd2 g (tool d1 s1 pd1 f registry).2).2 g.name =
      some (tool d2 s2 pd2 g (tool d1 s1 pd1 f registry).2).1 := by
    simp only [tool, get_tool]
    exact getKey_setKey_self _ _ _
  refine ⟨h, fun r hr => ?_⟩
  rw [h] at hr
  exact (Option.some.inj hr).symm

/-- C8 witness: two concrete registrations under the name dup; the lookup
returns the second RegisteredTool. -/
theorem claim_C8_witness :
    get_tool (tool "second" true [] ⟨"dup", [], fun _ => Except.ok PyVal.vNone⟩
        (tool "first" true [] ⟨"dup", [], fun _ => Except.ok PyVal.vNone⟩
          []).2).2 "dup" =
      some (tool "second" true [] ⟨"dup", [], fun _ => Except.ok PyVal.vNone⟩
        (tool "first" true [] ⟨"dup", [], fun _ => Except.ok PyVal.vNone⟩
          []).2).1 :=
  (claim_C8 [] ⟨"dup", [], fun _ => Except.ok PyVal.vNone⟩
    ⟨"dup", [], fun _ => Except.ok PyVal.vNone⟩ "first" "second" true true
    [] [] rfl).1

/-- C10: every successful save_file call — in particular when the target did
not exist before the call — returns a message that begins with the words
Overwrote file, and never one that begins with the words Created file,
because the existence test selecting the verb runs after the file has been
written and therefore always sees an existing file. -/
theorem claim_C10 (resolve : String → List String) (root : List String)
    (fs : List (List String × String)) (path content : String)
    (overwrite : Bool) (resolved : List String)
    (hv : Config.validate_path resolve root path = Except.ok resolved)
    (ho : (fs.find? (fun q => q.1 == resolved)).isSome = true →
      overwrite = true) :
    ∃ rest fs2,
      save_file resolve root fs path content overwrite =
        Except.ok ("Overwrote file: " ++ rest, fs2) ∧
      ∀ other, "Overwrote file: " ++ rest ≠ "Created file: " ++ other := by
  have hcond : ¬((fs.find? (fun q => q.1 == resolved)).isSome = true ∧
      overwrite = false) := by
    rintro ⟨h1, h2⟩
    rw [ho h1] at h2
    exact absurd h2 (by decide)
  refine ⟨path ++ " (" ++ _format_size content.utf8ByteSize ++ ")",
    (resolved, content) :: fs.filter (fun q => q.1 != resolved), ?_,
    fun other => overwrote_ne_created _ other⟩
  simp only [save_file, hv]
  rw [if_neg hcond]
  have hfind : (((resolved, content) ::
      fs.filter (fun q => q.1 != resolved)).find?
        (fun q => q.1 == resolved)).isSome = true := by
    simp [List.find?_cons]
  simp only [hfind, if_true, overwrote_msg_eq]

/-- C10 witness: saving to a path that does not exist in the filesystem still
reports Overwrote file. -/
theorem claim_C10_witness :
    ∃ rest fs2,
      save_file (fun _ => ["home", "u", "new.txt"]) ["home", "u"] []
        "/home/u/new.txt" "hello" false =
        Except.ok ("Overwrote file: " ++ rest, fs2) ∧
      ∀ other, "Overwrote file: " ++ rest ≠ "Created file: " ++ other :=
  claim_C10 (fun _ => ["home", "u", "new.txt"]) ["home", "u"] []
    "/home/u/new.txt" "hello" false ["home", "u", "new.txt"] rfl
    (fun h => absurd h (by decide))

/-- C3 (amended): the registry mutex is held for the whole persistent_shell
call, not only around registry membership changes: the event trace of every
call starts with the lock acquisition, ends with its release, and every
other event — in particular every poll-loop sleep — lies strictly between
the two, so the blocking poll wait runs inside the critical section and two
concurrent command executions, even on different session ids, are
serialized by that lock. -/
theorem claim_C3 (env : ShellEnv) (cmd sid : String) (timeout : Nat)
    (fresh : String) (t0 : Nat) (st : ShellState) :
    ∃ evs, (persistent_shell env cmd sid timeout fresh t0 st).2.2 =
        Event.lockAcquire :: evs ++ [Event.lockRelease] ∧
      ∀ e ∈ evs, e ≠ Event.lockAcquire ∧ e ≠ Event.lockRelease :=
  ⟨(persistent_shell_body env cmd sid timeout fresh t0 st).2.2, rfl,
   pshell_body_events env cmd sid timeout fresh t0 st⟩

/-- C3 counterexample: in a concrete command execution the trace contains a
poll-loop sleep strictly between the lock acquisition and the lock release,
so the blocking poll loop runs inside, not outside, the mutex, contrary to
the claim. -/
theorem claim_C3_counterexample :
    Event.pollSleep ∈
      ((persistent_shell ⟨fun _ _ => false, fun _ => none, "tmp", none⟩
          "echo hi" "s" 1 "f" 0 ⟨["s"], [("s", 0)], []⟩).2.2.drop 1).dropLast ∧
    (persistent_shell ⟨fun _ _ => false, fun _ => none, "tmp", none⟩
        "echo hi" "s" 1 "f" 0 ⟨["s"], [("s", 0)], []⟩).2.2.head? =
      some Event.lockAcquire ∧
    (persistent_shell ⟨fun _ _ => false, fun _ => none, "tmp", none⟩
        "echo hi" "s" 1 "f" 0 ⟨["s"], [("s", 0)], []⟩).2.2.getLast? =
      some Event.lockRelease := by
  decide

/-- C3 witness: the amended lock-scope statement at a concrete call. -/
theorem claim_C3_witness :
    ∃ evs, (persistent_shell ⟨fun _ _ => false, fun _ => none, "tmp", none⟩
        "pwd" "s2" 1 "g" 3 ⟨[], [], []⟩).2.2 =
        Event.lockAcquire :: evs ++ [Event.lockRelease] ∧
      ∀ e ∈ evs, e ≠ Event.lockAcquire ∧ e ≠ Event.lockRelease :=
  claim_C3 ⟨fun _ _ => false, fun _ => none, "tmp", none⟩ "pwd" "s2" 1 "g" 3
    ⟨[], [], []⟩

/-- C4 (amended): when the completion sentinel never appears within the
timeout, the call returns the captured output suffixed with the timed-out
marker, the shell process is not terminated and the session stays registered
and stamped — provided the timeout does not exceed the 3600 s idle
threshold; with a larger timeout the idle cleanup at the end of the very
same call reaps the session itself (see the counterexample). -/
theorem claim_C4 (env : ShellEnv) (cmd sid fresh : String) (timeout t0 : Nat)
    (st : ShellState) (hsid : sid ≠ "") (hmem : sid ∈ st.sessions)
    (he : ∀ t, env.exited sid t = false)
    (hm : ∀ t c, env.file t = some c → strContains c (doneMarker sid) = false)
    (hw : env.writeFails = none) (hterm : sid ∉ st.terminated)
    (htm : timeout ≤ 3600) :
    ∃ captured st2 evs,
      persistent_shell env cmd sid timeout fresh t0 st =
        (captured ++ "\n[Timed out after " ++ toString timeout ++ "s]",
         st2, evs) ∧
      sid ∈ st2.sessions ∧ sid ∉ st2.terminated ∧
      getKey st2.lastActivity sid = some t0 := by
  obtain ⟨raw, hexec⟩ :=
    executeCommand_timedOut env cmd sid timeout t0 st false [] hm he hw
  rw [if_neg (by decide : ¬(false = true)), empty_append_str] at hexec
  have hps := pshell_exec_eq env cmd sid timeout fresh t0 st _ _ _ hsid hmem
    (he t0) hexec
  obtain ⟨c1, c2, c3⟩ := cleanup_preserves (t0 + 10 * timeout)
    { st with lastActivity := setKey st.lastActivity sid t0 } sid t0 hmem
    (getKey_setKey_self _ _ _) hterm (by omega)
  exact ⟨pyStrip (pyReplace raw (doneMarker sid) ""), _, _, hps, c1, c3, c2⟩

/-- C4 counterexample: with a 3601 s timeout — above the 3600 s idle limit —
a command whose sentinel never appears makes the end-of-call idle cleanup
terminate the shell process of the very session that ran it and remove the
session from the registry, contradicting the claim that the process is not
terminated and the session always remains registered and usable. -/
theorem claim_C4_counterexample :
    "s" ∉ (persistent_shell ⟨fun _ _ => false, fun _ => none, "tmp", none⟩
        "sleep 99999" "s" 3601 "f" 0 ⟨["s"], [("s", 0)], []⟩).2.1.sessions ∧
    "s" ∈ (persistent_shell ⟨fun _ _ => false, fun _ => none, "tmp", none⟩
        "sleep 99999" "s" 3601 "f" 0 ⟨["s"], [("s", 0)], []⟩).2.1.terminated :=
  pshell_selfreap ⟨fun _ _ => false, fun _ => none, "tmp", none⟩
    "sleep 99999" "s" "f" 3601 0 ⟨["s"], [("s", 0)], []⟩
    (by decide) (by decide) (fun t => rfl)
    (fun t c h => Option.noConfusion h) rfl (by decide)

/-- C4 witness: the amended timeout behavior at a concrete call with a 1 s
timeout on a registered session whose scratch file never holds the
sentinel. -/
theorem claim_C4_witness :
    ∃ captured st2 evs,
      persistent_shell ⟨fun _ _ => false, fun _ => none, "tmp", none⟩
          "sleep 5" "s" 1 "f" 0 ⟨["s"], [], []⟩ =
        (captured ++ "\n[Timed out after " ++ toString 1 ++ "s]", st2, evs) ∧
      "s" ∈ st2.sessions ∧ "s" ∉ st2.terminated ∧
      getKey st2.lastActivity "s" = some 0 :=
  claim_C4 ⟨fun _ _ => false, fun _ => none, "tmp", none⟩ "sleep 5" "s" "f"
    1 0 ⟨["s"], [], []⟩ (by decide) (by decide) (fun t => rfl)
    (fun t c h => Option.noConfusion h) rfl (by simp) (by decide)

/-- C5: executing against a registered session whose process has already
exited reaps it — the call returns the process-exited error and removes the
id from the registry — and every further call presenting the same id against
a registry that does not hold it returns the not-found error and leaves the
state untouched, so the id stays permanently invalid and no new process is
created for it. -/
theorem claim_C5 (env : ShellEnv) (cmd sid : String) (timeout : Nat)
    (fresh : String) (t0 : Nat) (st : ShellState) (hsid : sid ≠ "")
    (hmem : sid ∈ st.sessions) (hex : env.exited sid t0 = true) :
    ((persistent_shell env cmd sid timeout fresh t0 st).1 =
       "Error: Shell process has exited. Create a new session." ∧
     sid ∉ (persistent_shell env cmd sid timeout fresh t0 st).2.1.sessions) ∧
    (∀ (env2 : ShellEnv) (cmd2 : String) (timeout2 : Nat) (fresh2 : String)
       (t1 : Nat) (st2 : ShellState), sid ∉ st2.sessions →
       (persistent_shell env2 cmd2 sid timeout2 fresh2 t1 st2).1 =
         "Error: Session " ++ sid ++ " not found. Create a new session." ∧
       (persistent_shell env2 cmd2 sid timeout2 fresh2 t1 st2).2.1 = st2) := by
  constructor
  · rw [pshell_procExited_lookup env cmd sid timeout fresh t0 st hsid hmem hex]
    exact ⟨rfl, not_mem_delId_self _ _⟩
  · intro env2 cmd2 timeout2 fresh2 t1 st2 h2
    rw [pshell_notfound env2 cmd2 sid timeout2 fresh2 t1 st2 hsid h2]
    exact ⟨rfl, rfl⟩

/-- C5 witness: a registered session with a dead process; the reaping call
and a follow-up call with the same id against the resulting registry. -/
theorem claim_C5_witness :
    ((persistent_shell ⟨fun _ _ => true, fun _ => none, "tmp", none⟩
        "ls" "s" 1 "f" 5 ⟨["s"], [("s", 0)], []⟩).1 =
       "Error: Shell process has exited. Create a new session." ∧
     "s" ∉ (persistent_shell ⟨fun _ _ => true, fun _ => none, "tmp", none⟩
        "ls" "s" 1 "f" 5 ⟨["s"], [("s", 0)], []⟩).2.1.sessions) ∧
    ((persistent_shell ⟨fun _ _ => true, fun _ => none, "tmp", none⟩
        "pwd" "s" 1 "g" 6 ⟨[], [("s", 0)], []⟩).1 =
       "Error: Session " ++ "s" ++ " not found. Create a new session." ∧
     (persistent_shell ⟨fun _ _ => true, fun _ => none, "tmp", none⟩
        "pwd" "s" 1 "g" 6 ⟨[], [("s", 0)], []⟩).2.1 =
       ⟨[], [("s", 0)], []⟩) :=
  ⟨(claim_C5 ⟨fun _ _ => true, fun _ => none, "tmp", none⟩ "ls" "s" 1 "f" 5
      ⟨["s"], [("s", 0)], []⟩ (by decide) (by decide) rfl).1,
   (claim_C5 ⟨fun _ _ => true, fun _ => none, "tmp", none⟩ "ls" "s" 1 "f" 5
      ⟨["s"], [("s", 0)], []⟩ (by decide) (by decide) rfl).2
     ⟨fun _ _ => true, fun _ => none, "tmp", none⟩ "pwd" 1 "g" 6
     ⟨[], [("s", 0)], []⟩ (by simp)⟩

/-- C6: calling the tool with an empty session id and a whitespace-only
command spawns a shell process, registers it under the fresh id with the
current timestamp, returns immediately with the id in the output, and
executes no command — the trace holds no stdin write and no poll sleep,
only the lock pair around the spawn. -/
theorem claim_C6 (env : ShellEnv) (command : String) (timeout : Nat)
    (fresh : String) (t0 : Nat) (st : ShellState)
    (hcmd : pyStrip command = "") (_hfresh : fresh ∉ st.sessions)
    (_hla : getKey st.lastActivity fresh = none) :
    persistent_shell env command "" timeout fresh t0 st =
      ("Created new shell session: " ++ fresh ++
         "\n\nUse this ID for subsequent commands.",
       { st with
           sessions := setId st.sessions fresh
           lastActivity := setKey st.lastActivity fresh t0 },
       [Event.lockAcquire, Event.spawnProcess, Event.lockRelease]) ∧
    fresh ∈ (persistent_shell env command "" timeout fresh t0 st).2.1.sessions ∧
    getKey (persistent_shell env command "" timeout fresh t0
      st).2.1.lastActivity fresh = some t0 := by
  have h : persistent_shell env command "" timeout fresh t0 st =
      ("Created new shell session: " ++ fresh ++
         "\n\nUse this ID for subsequent commands.",
       { st with
           sessions := setId st.sessions fresh
           lastActivity := setKey st.lastActivity fresh t0 },
       [Event.lockAcquire, Event.spawnProcess, Event.lockRelease]) := by
    simp [persistent_shell, persistent_shell_body, hcmd]
  refine ⟨h, ?_, ?_⟩
  · rw [h]
    exact mem_setId_self st.sessions fresh
  · rw [h]
    exact getKey_setKey_self st.lastActivity fresh t0

/-- C6 witness: creating a session with a whitespace-only command and a fresh
id against an empty registry. -/
theorem claim_C6_witness :
    persistent_shell ⟨fun _ _ => false, fun _ => none, "tmp", none⟩ "  " ""
        7 "abc" 11 ⟨[], [], []⟩ =
      ("Created new shell session: " ++ "abc" ++
         "\n\nUse this ID for subsequent commands.",
       { sessions := setId [] "abc", lastActivity := setKey [] "abc" 11,
         terminated := [] },
       [Event.lockAcquire, Event.spawnProcess, Event.lockRelease]) ∧
    "abc" ∈ (persistent_shell ⟨fun _ _ => false, fun _ => none, "tmp", none⟩
        "  " "" 7 "abc" 11 ⟨[], [], []⟩).2.1.sessions ∧
    getKey (persistent_shell ⟨fun _ _ => false, fun _ => none, "tmp", none⟩
        "  " "" 7 "abc" 11 ⟨[], [], []⟩).2.1.lastActivity "abc" = some 11 :=
  claim_C6 ⟨fun _ _ => false, fun _ => none, "tmp", none⟩ "  " 7 "abc" 11
    ⟨[], [], []⟩ rfl (by simp) rfl

/-- C9: observing a dead process deletes the session id from the process map
only, leaving its last-activity entry behind — both when the death is seen
at lookup (part one: the activity map is untouched) and when it is seen
inside the poll loop (part two: the entry remains, freshly stamped); only
the failure-during-execute path removes the id from both maps and terminates
the process (part three); and a stale id left in the activity map is removed
by the idle cleanup of a later command-executing call (part four). -/
theorem claim_C9 :
    (∀ (env : ShellEnv) (cmd sid : String) (timeout : Nat) (fresh : String)
       (t0 : Nat) (st : ShellState), sid ≠ "" → sid ∈ st.sessions →
       env.exited sid t0 = true →
       (persistent_shell env cmd sid timeout fresh t0 st).2.1.sessions =
         delId st.sessions sid ∧
       (persistent_shell env cmd sid timeout fresh t0 st).2.1.lastActivity =
         st.lastActivity) ∧
    (∀ (env : ShellEnv) (cmd sid : String) (timeout : Nat) (fresh : String)
       (t0 : Nat) (st : ShellState), sid ≠ "" → sid ∈ st.sessions →
       env.writeFails = none → 2 ≤ 10 * timeout → (∀ t, env.file t = none) →
       env.exited sid t0 = false → env.exited sid (t0 + 1) = true →
       (persistent_shell env cmd sid timeout fresh t0 st).2.1.sessions =
         delId st.sessions sid ∧
       getKey (persistent_shell env cmd sid timeout fresh t0
         st).2.1.lastActivity sid = some t0) ∧
    (∀ (env : ShellEnv) (cmd sid : String) (timeout : Nat) (fresh : String)
       (t0 : Nat) (st : ShellState) (emsg : String), sid ≠ "" →
       sid ∈ st.sessions → env.exited sid t0 = false →
       env.writeFails = some emsg →
       sid ∉ (persistent_shell env cmd sid timeout fresh t0 st).2.1.sessions ∧
       getKey (persistent_shell env cmd sid timeout fresh t0
         st).2.1.lastActivity sid = none ∧
       sid ∈ (persistent_shell env cmd sid timeout fresh t0
         st).2.1.terminated) ∧
    (∀ (env : ShellEnv) (cmd sid : String) (timeout : Nat) (fresh : String)
       (t0 : Nat) (st : ShellState) (x : String) (la : Nat), sid ≠ "" →
       sid ∈ st.sessions → (∀ t, env.exited sid t = false) →
       (∀ t c, env.file t = some c →
         strContains c (doneMarker sid) = false) →
       env.writeFails = none → x ≠ sid →
       getKey st.lastActivity x = some la →
       36000 < t0 + 10 * timeout - la →
       getKey (persistent_shell env cmd sid timeout fresh t0
         st).2.1.lastActivity x = none) := by
  refine ⟨?_, ?_, ?_, ?_⟩
  · intro env cmd sid timeout fresh t0 st hsid hmem hex
    rw [pshell_procExited_lookup env cmd sid timeout fresh t0 st hsid hmem hex]
    exact ⟨rfl, rfl⟩
  · intro env cmd sid timeout fresh t0 st hsid hmem hw hT hf he0 he1
    obtain ⟨evs, hexec⟩ := executeCommand_procExited env cmd sid timeout t0 st
      false [] hw hT hf he0 he1
    have hps := pshell_exec_eq env cmd sid timeout fresh t0 st _ _ _ hsid hmem
      he0 hexec
    rw [hps]
    exact ⟨rfl, getKey_setKey_self st.lastActivity sid t0⟩
  · intro env cmd sid timeout fresh t0 st emsg hsid hmem he0 hw
    have hexec := executeCommand_writeFails env cmd sid timeout t0 st false []
      emsg hw hmem
    have hps := pshell_exec_eq env cmd sid timeout fresh t0 st _ _ _ hsid hmem
      he0 hexec
    rw [hps]
    exact ⟨not_mem_delId_self _ _, getKey_delKey_self _ _,
           List.mem_cons_self _ _⟩
  · intro env cmd sid timeout fresh t0 st x la hsid hmem he hm hw hx hla hstale
    obtain ⟨raw, hexec⟩ :=
      executeCommand_timedOut env cmd sid timeout t0 st false [] hm he hw
    have hps := pshell_exec_eq env cmd sid timeout fresh t0 st _ _ _ hsid hmem
      (he t0) hexec
    rw [hps]
    have hkx : getKey (setKey st.lastActivity sid t0) x = some la := by
      rw [getKey_setKey_ne st.lastActivity sid x t0 hx]
      exact hla
    exact (cleanup_removes (t0 + 10 * timeout)
      { st with lastActivity := setKey st.lastActivity sid t0 } x la hkx
      hstale).2.1

/-- C9 witness: the four frame-effect statements at concrete calls: death at
lookup, death during the poll, a failing stdin write, and a stale foreign
entry swept by the idle cleanup of another session. -/
theorem claim_C9_witness :
    ((persistent_shell ⟨fun _ _ => true, fun _ => none, "tmp", none⟩
        "ls" "s" 1 "f" 9 ⟨["s"], [("s", 7)], []⟩).2.1.sessions =
       delId ["s"] "s" ∧
     (persistent_shell ⟨fun _ _ => true, fun _ => none, "tmp", none⟩
        "ls" "s" 1 "f" 9 ⟨["s"], [("s", 7)], []⟩).2.1.lastActivity =
       [("s", 7)]) ∧
    ((persistent_shell ⟨fun _ t => decide (0 < t), fun _ => none, "tmp", none⟩
        "ls" "s" 1 "f" 0 ⟨["s"], [], []⟩).2.1.sessions = delId ["s"] "s" ∧
     getKey (persistent_shell ⟨fun _ t => decide (0 < t), fun _ => none,
        "tmp", none⟩ "ls" "s" 1 "f" 0 ⟨["s"], [], []⟩).2.1.lastActivity "s" =
       some 0) ∧
    ("s" ∉ (persistent_shell ⟨fun _ _ => false, fun _ => none, "tmp",
        some "boom"⟩ "ls" "s" 1 "f" 3 ⟨["s"], [("s", 1)], []⟩).2.1.sessions ∧
     getKey (persistent_shell ⟨fun _ _ => false, fun _ => none, "tmp",
        some "boom"⟩ "ls" "s" 1 "f" 3
        ⟨["s"], [("s", 1)], []⟩).2.1.lastActivity "s" = none ∧
     "s" ∈ (persistent_shell ⟨fun _ _ => false, fun _ => none, "tmp",
        some "boom"⟩ "ls" "s" 1 "f" 3
        ⟨["s"], [("s", 1)], []⟩).2.1.terminated) ∧
    getKey (persistent_shell ⟨fun _ _ => false, fun _ => none, "tmp", none⟩
        "ls" "s" 1 "f" 40000
        ⟨["s"], [("s", 39999), ("old", 0)], []⟩).2.1.lastActivity "old" =
      none :=
  ⟨claim_C9.1 ⟨fun _ _ => true, fun _ => none, "tmp", none⟩ "ls" "s" 1 "f" 9
     ⟨["s"], [("s", 7)], []⟩ (by decide) (by decide) rfl,
   claim_C9.2.1 ⟨fun _ t => decide (0 < t), fun _ => none, "tmp", none⟩
     "ls" "s" 1 "f" 0 ⟨["s"], [], []⟩ (by decide) (by decide) rfl
     (by decide) (fun t => rfl) rfl rfl,
   claim_C9.2.2.1 ⟨fun _ _ => false, fun _ => none, "tmp", some "boom"⟩
     "ls" "s" 1 "f" 3 ⟨["s"], [("s", 1)], []⟩ "boom" (by decide) (by decide)
     rfl rfl,
   claim_C9.2.2.2 ⟨fun _ _ => false, fun _ => none, "tmp", none⟩
     "ls" "s" 1 "f" 40000 ⟨["s"], [("s", 39999), ("old", 0)], []⟩ "old" 0
     (by decide) (by decide) (fun t => rfl)
     (fun t c h => Option.noConfusion h) rfl (by decide) rfl (by decide)⟩
